import Mathlib

/-!
Verification of the Walmart SKU/store snapshot scraper
(scripts/walmart_sku_store_check.py and scraper.py).

The development shallowly embeds the pure extraction, resolution,
normalization and classification core of the script, together with the
control-flow skeleton of the run orchestrator, and proves the claims of
the specification against those definitions.

Modelling conventions:
- Python strings are List Char; Python dicts decoded from JSON are
  assoc-list values (JDict) whose key order is insertion order, as in
  CPython; lookup takes the first matching key (keys of a decoded JSON
  object are unique, so this agrees with dict lookup).
- A decoded JSON tree is a JVal: null, bool, integer number, string,
  array or object. Non-integer JSON numbers are outside the model; no
  claim depends on them.
- Python float results of the numeric normalizer are modelled as exact
  rationals: every operation performed by the script on them
  (decimal-string parsing, comparison with None) is exact.
- Python bool is a subtype of int; isinstance(x, int) is true for bools
  and float(True) is 1.0. The model mirrors this where the script does
  isinstance checks.
- Code behind external libraries (playwright navigation, BeautifulSoup
  script-element scanning) enters the model as oracle inputs: a fetch
  either times out or yields a page with an HTTP status, text, final URL
  and the optional JSON tree located inside the page text.
-/

/-! ## Basic string utilities -/

/-- Does the second list start with the first one? -/
def starts_with : List Char → List Char → Bool
  | [], _ => true
  | _ :: _, [] => false
  | p :: ps, c :: cs => p = c && starts_with ps cs

/-- Index of the first occurrence of sub in s, as Python str.find
(restricted to found/not-found instead of -1). -/
def find_sub (sub s : List Char) : Option Nat :=
  match s with
  | [] => if starts_with sub [] then some 0 else none
  | c :: rest =>
    if starts_with sub (c :: rest) then some 0
    else (find_sub sub rest).map (· + 1)

/-- Python substring containment, as in token in text. -/
def contains_sub (s sub : List Char) : Bool := (find_sub sub s).isSome

/-- Python str.strip whitespace set (ASCII part). -/
def py_space (c : Char) : Bool :=
  c = ' ' || c = '\t' || c = '\n' || c = '\r' || c = '\x0b' || c = '\x0c'

/-- Python str.strip. -/
def py_strip (s : List Char) : List Char :=
  ((s.dropWhile py_space).reverse.dropWhile py_space).reverse

/-- Python str.lower (character-wise). -/
def lower_chars (s : List Char) : List Char := s.map Char.toLower

/-- Decimal digits of a natural number, most significant first; the fuel
argument is an upper bound on the digit count (n + 1 always suffices). -/
def nat_chars_aux : Nat → Nat → List Char
  | 0, _ => []
  | fuel + 1, n =>
    if n < 10 then [Nat.digitChar n]
    else nat_chars_aux fuel (n / 10) ++ [Nat.digitChar (n % 10)]

/-- Decimal digits of a natural number. -/
def nat_chars (n : Nat) : List Char := nat_chars_aux (n + 1) n

/-- Python str() of an int. -/
def int_chars (n : Int) : List Char :=
  if n < 0 then '-' :: nat_chars n.natAbs else nat_chars n.natAbs

/-- Value of a list of decimal digit characters. -/
def digits_val (ds : List Char) : Nat :=
  ds.foldl (fun a c => a * 10 + (c.toNat - 48)) 0

/-- Python float() applied to a string made only of the characters kept
by the normalizer (digits, dot, minus): an optional leading minus, then
digits with at most one dot and at least one digit. Overflow to an IEEE
infinity cannot change presence/absence of a result, and the decimal
value itself is modelled exactly as a rational. -/
def py_float (cs : List Char) : Option ℚ :=
  let sign : Bool := cs.head? = some '-'
  let body := if sign then cs.tail else cs
  if body.contains '-' then none
  else
    match body.splitOn '.' with
    | [ip] =>
      if ip ≠ [] ∧ ip.all Char.isDigit then
        some ((if sign then -1 else 1) * (digits_val ip : ℚ))
      else none
    | [ip, fp] =>
      if (ip ≠ [] ∨ fp ≠ []) ∧ ip.all Char.isDigit ∧ fp.all Char.isDigit then
        some ((if sign then -1 else 1) *
          ((digits_val ip : ℚ) + (digits_val fp : ℚ) / (10 : ℚ) ^ fp.length))
      else none
    | _ => none

/-! ## Decoded JSON trees -/

mutual
/-- A Python value decoded from JSON by json.loads: None, bool, int,
str, list or dict (insertion-ordered). -/
inductive JVal where
  | jnull : JVal
  | jbool (b : Bool) : JVal
  | jint (n : Int) : JVal
  | jstr (s : List Char) : JVal
  | jarr (xs : JArr) : JVal
  | jobj (kvs : JDict) : JVal
deriving DecidableEq

/-- A decoded JSON array. -/
inductive JArr where
  | nil : JArr
  | cons (v : JVal) (rest : JArr) : JArr
deriving DecidableEq

/-- A decoded JSON object: key/value pairs in insertion order. -/
inductive JDict where
  | nil : JDict
  | cons (k : List Char) (v : JVal) (rest : JDict) : JDict
deriving DecidableEq
end

/-- dict lookup: first entry with the given key. -/
def dlookup : JDict → List Char → Option JVal
  | .nil, _ => none
  | .cons k v rest, key => if k = key then some v else dlookup rest key

/-- Python dict.get with default None: a missing key and a stored JSON
null are both Python None. -/
def dget (d : JDict) (key : List Char) : JVal := (dlookup d key).getD .jnull

/-- Python truthiness of a decoded value. -/
def truthy : JVal → Bool
  | .jnull => false
  | .jbool b => b
  | .jint n => n != 0
  | .jstr s => !s.isEmpty
  | .jarr .nil => false
  | .jarr (.cons _ _) => true
  | .jobj .nil => false
  | .jobj (.cons _ _ _) => true

/-- isinstance(x, (str, int)): Python bool is a subtype of int, so bools
pass this check as well. -/
def is_str_or_int : JVal → Bool
  | .jstr _ => true
  | .jint _ => true
  | .jbool _ => true
  | _ => false

/-- Body of Python repr() of a string under a chosen quote character:
backslash and the quote are escaped, common control characters use their
short escapes, and remaining characters are kept as-is. -/
def repr_str_body (q : Char) (s : List Char) : List Char :=
  s.flatMap fun c =>
    if c = '\\' ∨ c = q then ['\\', c]
    else if c = '\n' then ['\\', 'n']
    else if c = '\r' then ['\\', 'r']
    else if c = '\t' then ['\\', 't']
    else [c]

/-- Python repr() of a string: single-quoted, except double-quoted when
the text contains a single quote and no double quote. -/
def repr_str (s : List Char) : List Char :=
  let q : Char := if s.contains '\x27' ∧ ¬ s.contains '\x22' then '\x22' else '\x27'
  q :: repr_str_body q s ++ [q]

mutual
/-- Python repr() of a decoded value. -/
def py_repr : JVal → List Char
  | .jnull => "None".toList
  | .jbool true => "True".toList
  | .jbool false => "False".toList
  | .jint n => int_chars n
  | .jstr s => repr_str s
  | .jarr xs => '[' :: py_repr_elems xs ++ [']']
  | .jobj kvs => '\x7b' :: py_repr_members kvs ++ ['\x7d']

/-- repr of list elements, comma-space separated. -/
def py_repr_elems : JArr → List Char
  | .nil => []
  | .cons v .nil => py_repr v
  | .cons v rest => py_repr v ++ ',' :: ' ' :: py_repr_elems rest

/-- repr of dict members, comma-space separated, colon-space inside. -/
def py_repr_members : JDict → List Char
  | .nil => []
  | .cons k v .nil => repr_str k ++ ':' :: ' ' :: py_repr v
  | .cons k v rest => repr_str k ++ ':' :: ' ' :: py_repr v ++ ',' :: ' ' :: py_repr_members rest
end

/-- Python str() of a decoded value: identity on strings, repr-based
otherwise (str(True) is "True", str(12) is "12", str(None) is "None"). -/
def py_str : JVal → List Char
  | .jstr s => s
  | v => py_repr v

mutual
/-- The tree walker _walk_items: a dict node is yielded before its
values (pre-order, insertion order); a list is not yielded itself but
each element is walked in index order; leaves yield nothing. -/
def walk_items : JVal → List JDict
  | .jobj kvs => kvs :: walk_dict_values kvs
  | .jarr xs => walk_arr xs
  | _ => []

/-- Walk every element of an array in order. -/
def walk_arr : JArr → List JDict
  | .nil => []
  | .cons v rest => walk_items v ++ walk_arr rest

/-- Walk every value of a dict in insertion order. -/
def walk_dict_values : JDict → List JDict
  | .nil => []
  | .cons _ v rest => walk_items v ++ walk_dict_values rest
end

/-- _first_str: first key whose value is a string with non-empty strip;
returns the stripped value. -/
def first_str (node : JDict) : List (List Char) → Option (List Char)
  | [] => none
  | key :: rest =>
    match dlookup node key with
    | some (.jstr s) =>
      if (py_strip s).isEmpty then first_str node rest else some (py_strip s)
    | _ => first_str node rest

/-! ## Field normalization (_number_from and friends) -/

/-- Characters kept by the normalizer's regex [^0-9.,-] substitution. -/
def keep_num_char (c : Char) : Bool :=
  c.isDigit || c = '.' || c = ',' || c = '-'

/-- The dict keys probed recursively by _number_from. -/
def number_keys : List (List Char) :=
  ["price".toList, "value".toList, "amount".toList, "current".toList, "minPrice".toList]

mutual
/-- _number_from: native numbers (ints, and bools through the
isinstance(int) check: float(True) is 1.0) pass through; a string is
stripped to digits/dot/comma/minus, commas removed, then parsed as a
decimal; a dict is probed recursively under number_keys, first key whose
value yields a number wins; anything else yields None. -/
def number_from : JVal → Option ℚ
  | .jint n => some (n : ℚ)
  | .jbool b => some (if b then 1 else 0)
  | .jstr s =>
    let cleaned := (s.filter keep_num_char).filter (· ≠ ',')
    if cleaned.isEmpty then none else py_float cleaned
  | .jobj kvs => num_from_dict kvs number_keys
  | _ => none
termination_by v => (sizeOf v, 0, 0)

/-- The key loop of _number_from on a dict: keys present in the dict are
tried in the fixed key order; a present key whose value does not
normalize is skipped and the next key is tried. -/
def num_from_dict (kvs : JDict) : List (List Char) → Option ℚ
  | [] => none
  | key :: rest =>
    match num_from_key kvs key with
    | some r => (match r with | some x => some x | none => num_from_dict kvs rest)
    | none => num_from_dict kvs rest
termination_by keys => (sizeOf kvs, 1, keys.length)

/-- Lookup of one key combined with the recursive normalization of its
value; none means the key is absent. -/
def num_from_key : JDict → List Char → Option (Option ℚ)
  | .nil, _ => none
  | .cons k' v rest, key =>
    if k' = key then some (number_from v) else num_from_key rest key
termination_by d _ => (sizeOf d, 0, 0)
end

/-- The price-key loop of _extract_product_fields: for each fallback key
present on the node, normalize its value; the first key that yields a
number wins, a present key that does not normalize falls through to the
next key. -/
def probe_price (product : JDict) : List (List Char) → Option ℚ
  | [] => none
  | key :: rest =>
    match dlookup product key with
    | some v =>
      match number_from v with
      | some x => some x
      | none => probe_price product rest
    | none => probe_price product rest

/-! ## Product resolution (_extract_product_fields) -/

/-- Title fallback keys. -/
def title_keys : List (List Char) :=
  ["name".toList, "title".toList, "productName".toList]

/-- Current-price fallback keys. -/
def current_price_keys : List (List Char) :=
  ["currentPrice".toList, "price".toList, "priceDisplay".toList, "finalPrice".toList]

/-- Regular-price fallback keys. -/
def regular_price_keys : List (List Char) :=
  ["wasPrice".toList, "regularPrice".toList, "listPrice".toList, "compareAtPrice".toList]

/-- Availability-text fallback keys. -/
def availability_keys : List (List Char) :=
  ["availabilityStatus".toList, "availabilityText".toList,
   "fulfillmentLabel".toList, "inventoryStatus".toList]

/-- node.get("sku") or node.get("id") or node.get("usItemId"): Python
or-chains on truthiness, the last operand is returned even when falsy. -/
def node_sku_of (node : JDict) : JVal :=
  let a := dget node "sku".toList
  if truthy a then a
  else
    let b := dget node "id".toList
    if truthy b then b else dget node "usItemId".toList

/-- The exact-match test of the resolver: the or-chained identifier must
be a str or int (bools included, as in Python) and its str()-image,
stripped, must equal the normalized target SKU. -/
def exact_match (node : JDict) (skuNorm : List Char) : Bool :=
  is_str_or_int (node_sku_of node) && py_strip (py_str (node_sku_of node)) == skuNorm

/-- Does the node carry a resolvable title? -/
def has_title (node : JDict) : Bool := (first_str node title_keys).isSome

/-- The candidate-collection loop of _extract_product_fields: walk
nodes in order, discard untitled ones, append exact matches to the first
list and the others to the second. -/
def bucket_nodes (nodes : List JDict) (skuNorm : List Char) : List JDict × List JDict :=
  nodes.foldl
    (fun acc node =>
      match first_str node title_keys with
      | none => acc
      | some _ =>
        if exact_match node skuNorm then (acc.1 ++ [node], acc.2)
        else (acc.1, acc.2 ++ [node]))
    ([], [])

/-- The node-selection part of _extract_product_fields: first exact
candidate in walk order, else first titled fallback, else nothing. -/
def resolve_product (data : JVal) (sku : List Char) : Option JDict :=
  let skuNorm := py_strip sku
  let (candidates, fallbacks) := bucket_nodes (walk_items data) skuNorm
  match candidates with
  | p :: _ => some p
  | [] => match fallbacks with
    | p :: _ => some p
    | [] => none

/-- The stock-flag derivation: an explicit bool under inStock wins;
otherwise the lowered availability text (empty when absent) is probed
for the true tokens first, then the false tokens; otherwise None. -/
def in_stock_from (product : JDict) (availability : Option (List Char)) : Option Bool :=
  match dlookup product "inStock".toList with
  | some (.jbool b) => some b
  | _ =>
    let statusLower := lower_chars (availability.getD [])
    if ["in stock".toList, "available".toList, "pickup".toList].any
        (fun t => contains_sub statusLower t) then some true
    else if ["out of stock".toList, "unavailable".toList, "sold out".toList,
        "rupture".toList].any (fun t => contains_sub statusLower t) then some false
    else none

/-- The resolved product facts returned by _extract_product_fields. -/
structure ProductFacts where
  sku : List Char
  title : List Char
  price_current : Option ℚ
  price_regular : Option ℚ
  in_stock : Option Bool
  availability : Option (List Char)
deriving DecidableEq

/-- _extract_product_fields: resolve a product node, require a title,
normalize prices through the fallback key lists, resolve availability
text and the stock flag, and report the node's own "sku" entry (Python
str of it) or, when that entry is absent or falsy, the requested SKU. -/
def extract_product_fields (data : JVal) (sku : List Char) : Option ProductFacts :=
  match resolve_product data sku with
  | none => none
  | some product =>
    match first_str product title_keys with
    | none => none
    | some title =>
      some
        { sku := py_str (let v := dget product "sku".toList
                         if truthy v then v else .jstr sku)
          title := title
          price_current := probe_price product current_price_keys
          price_regular := probe_price product regular_price_keys
          in_stock := in_stock_from product (first_str product availability_keys)
          availability := first_str product availability_keys }

/-! ## Status classification (fetch_sku_store_data) -/

/-- The four terminal outcome statuses. -/
inductive Status where
  | ok : Status
  | out_of_stock : Status
  | not_found : Status
  | blocked : Status
deriving DecidableEq

/-- What the page retrieval collaborator hands back for one product URL
when navigation succeeds: the HTTP status of the response (None when
playwright returns no response object), the page text, the resolved URL,
and the JSON tree located inside the text by _extract_embedded_data
(None when no script yields a decodable payload). -/
structure PageResult where
  status_code : Option Int
  html : List Char
  final_url : List Char
  embedded : Option JVal

/-- One fetch either times out in navigation or yields a page. -/
inductive FetchResponse where
  | timed_out : FetchResponse
  | loaded (p : PageResult) : FetchResponse

/-- The per-(store, SKU) outcome record: its SKU field, its status, and
the resolved facts when extraction succeeded. -/
structure FetchOutcome where
  sku : List Char
  status : Status
  facts : Option ProductFacts
deriving DecidableEq

/-- _page_is_blocked: an anti-automation marker in the lowered page
text, or /blocked in the lowered resolved URL. -/
def page_is_blocked (html finalUrl : List Char) : Bool :=
  ["access denied".toList, "automated access".toList, "captcha".toList,
   "verify you are human".toList, "forbidden".toList].any
    (fun t => contains_sub (lower_chars html) t)
  || contains_sub (lower_chars finalUrl) "/blocked".toList

/-- _page_is_not_found: a not-found marker in the lowered page text, or
/errors/ in the lowered resolved URL. -/
def page_is_not_found (html finalUrl : List Char) : Bool :=
  ["404".toList, "page introuvable".toList, "page not found".toList].any
    (fun t => contains_sub (lower_chars html) t)
  || contains_sub (lower_chars finalUrl) "/errors/".toList

/-- fetch_sku_store_data, as a pure function of the retrieval result:
navigation timeout yields not_found; HTTP 403/429 or a blocked page
yields blocked; HTTP 404 or a not-found page yields not_found; a missing
payload or missing facts yields not_found; explicit out-of-stock beats a
price; a present price yields ok; otherwise not_found. On success the
outcome carries the facts and their sku field. -/
def fetch_sku_store_data (resp : FetchResponse) (sku : List Char) : FetchOutcome :=
  match resp with
  | .timed_out => ⟨sku, .not_found, none⟩
  | .loaded p =>
    if (p.status_code = some 403 ∨ p.status_code = some 429)
        ∨ page_is_blocked p.html p.final_url then
      ⟨sku, .blocked, none⟩
    else if p.status_code = some 404 ∨ page_is_not_found p.html p.final_url then
      ⟨sku, .not_found, none⟩
    else
      match p.embedded with
      | none => ⟨sku, .not_found, none⟩
      | some data =>
        match extract_product_fields data sku with
        | none => ⟨sku, .not_found, none⟩
        | some facts =>
          if facts.in_stock = some false then ⟨facts.sku, .out_of_stock, some facts⟩
          else if facts.price_current ≠ none then ⟨facts.sku, .ok, some facts⟩
          else ⟨facts.sku, .not_found, some facts⟩

/-! ## Run orchestration (main) -/

/-- Which of the navigation steps of _set_store_context time out for a
given store. The two networkidle waits go through _wait_network_idle,
which catches its timeout and replaces it with a fixed pause; the
initial goto and the reload raise on timeout. -/
structure NavBehavior where
  goto_times_out : Bool
  idle_after_goto_times_out : Bool
  reload_times_out : Bool
  idle_after_reload_times_out : Bool

/-- _wait_network_idle: returns normally whether or not the networkidle
wait timed out (the timeout is caught and replaced by a fixed pause). -/
def wait_network_idle (_timedOut : Bool) : Unit := ()

/-- _set_store_context: goto the home page (raises on timeout), wait for
network idle (never raises), set the pickup store, reload (raises on
timeout), wait again (never raises). Nothing catches the raises. -/
def set_store_context (nav : NavBehavior) : Except Unit Unit :=
  if nav.goto_times_out then .error ()
  else
    let _ := wait_network_idle nav.idle_after_goto_times_out
    if nav.reload_times_out then .error ()
    else
      let _ := wait_network_idle nav.idle_after_reload_times_out
      .ok ()

/-- The per-store input-validation test of main: store.get("store_id")
and store.get("store_slug") must both be truthy. -/
def store_fields_ok (store : JDict) : Bool :=
  truthy (dget store "store_id".toList) && truthy (dget store "store_slug".toList)

/-- The outcome substituted by the per-SKU except branch of main. -/
def failure_outcome (sku : List Char) : FetchOutcome := ⟨sku, .not_found, none⟩

/-- Why a run stopped early. -/
inductive RunError where
  | config_error : RunError
  | context_failure : RunError
deriving DecidableEq

/-- The store/SKU loops of main, over two oracles: fetchO models one
fetch_sku_store_data call for a (store, SKU) pair, with none standing
for an exception caught by the per-SKU try/except; nav models the
navigation timeouts hit by _set_store_context for a store. Per store:
validate the store fields (a failure raises and ends the run), set the
store context (an uncaught failure ends the run), then produce exactly
one outcome per SKU in input order, replacing a raised fetch by
failure_outcome; snapshots of completed stores are kept even when a
later store aborts the run. -/
def run_stores (nav : JDict → NavBehavior)
    (fetchO : JDict → List Char → Option FetchOutcome)
    (stores : List JDict) (skus : List (List Char)) :
    List (JDict × List FetchOutcome) × Option RunError :=
  match stores with
  | [] => ([], none)
  | store :: rest =>
    if ¬ store_fields_ok store then ([], some .config_error)
    else
      match set_store_context (nav store) with
      | .error _ => ([], some .context_failure)
      | .ok _ =>
        let results := skus.map (fun sku => (fetchO store sku).getD (failure_outcome sku))
        let (snaps, err) := run_stores nav fetchO rest skus
        ((store, results) :: snaps, err)

/-! ## Braced-segment extraction (_extract_braced_json) -/

/-- The scanning loop of _extract_braced_json over the remaining text,
carrying the brace depth, the inside-string flag and the escape-pending
flag; returns the number of characters consumed up to and including the
brace that brings the depth to zero, or none when the text ends first.
Inside a string an escape covers exactly the next character, an
unescaped double quote closes the string, and braces are ignored. -/
def scan : List Char → Int → Bool → Bool → Option Nat
  | [], _, _, _ => none
  | c :: cs, depth, inStr, esc =>
    if inStr then
      if esc then (scan cs depth inStr false).map (· + 1)
      else if c = '\\' then (scan cs depth inStr true).map (· + 1)
      else if c = '\x22' then (scan cs depth false esc).map (· + 1)
      else (scan cs depth inStr esc).map (· + 1)
    else
      if c = '\x22' then (scan cs depth true esc).map (· + 1)
      else if c = '\x7b' then (scan cs (depth + 1) inStr esc).map (· + 1)
      else if c = '\x7d' then
        if depth - 1 = 0 then some 1
        else (scan cs (depth - 1) inStr esc).map (· + 1)
      else (scan cs depth inStr esc).map (· + 1)

/-- _extract_braced_json: find the marker, find the first opening brace
from the marker position on, scan string-aware to the matching closing
brace, and return that substring inclusive; absence at any step returns
None. -/
def extract_braced_json (rawText marker : List Char) : Option (List Char) :=
  match find_sub marker rawText with
  | none => none
  | some markerPos =>
    match find_sub ['\x7b'] (rawText.drop markerPos) with
    | none => none
    | some rel =>
      let tail := rawText.drop (markerPos + rel)
      match scan tail 0 false false with
      | none => none
      | some len => some (tail.take len)

/-! ## A JSON serializer, for the round-trip property of the extractor -/

/-- JSON string escaping: quote and backslash escaped, other characters
verbatim. -/
def esc_char (c : Char) : List Char :=
  if c = '\x22' ∨ c = '\\' then ['\\', c] else [c]

/-- Escaped body of a JSON string literal. -/
def esc_str (s : List Char) : List Char := s.flatMap esc_char

/-- A JSON string literal: quote, escaped body, quote. -/
def str_lit (s : List Char) : List Char := '\x22' :: esc_str s ++ ['\x22']

mutual
/-- A canonical JSON serialization of a decoded tree; any brace or quote
characters of string values appear inside string literals, escaped per
JSON. The enclosed content of a marker-prefixed payload being valid JSON
is modelled as the content being the serialization of some tree. -/
def serialize : JVal → List Char
  | .jnull => "null".toList
  | .jbool true => "true".toList
  | .jbool false => "false".toList
  | .jint n => int_chars n
  | .jstr s => str_lit s
  | .jarr xs => '[' :: serialize_elems xs ++ [']']
  | .jobj kvs => '\x7b' :: serialize_members kvs ++ ['\x7d']

/-- Comma-separated serialization of array elements. -/
def serialize_elems : JArr → List Char
  | .nil => []
  | .cons v .nil => serialize v
  | .cons v rest => serialize v ++ ',' :: serialize_elems rest

/-- Comma-separated serialization of object members. -/
def serialize_members : JDict → List Char
  | .nil => []
  | .cons k v .nil => str_lit k ++ ':' :: serialize v
  | .cons k v rest => str_lit k ++ ':' :: serialize v ++ ',' :: serialize_members rest
end

/-- A segment is neutral when scanning it from any positive depth
outside a string neither returns nor changes the scanner state: the scan
of the segment followed by anything continues into that continuation
with the consumed count shifted by the segment length. -/
def Neutral (xs : List Char) : Prop :=
  ∀ (cs : List Char) (d : Int), 1 ≤ d →
    scan (xs ++ cs) d false false = (scan cs d false false).map (xs.length + ·)

/-! ## Scanner lemmas -/

theorem neutral_nil : Neutral [] := by
  intro cs d _
  simp

theorem neutral_append {xs ys : List Char} (hx : Neutral xs) (hy : Neutral ys) :
    Neutral (xs ++ ys) := by
  intro cs d hd
  rw [List.append_assoc, hx (ys ++ cs) d hd, hy cs d hd]
  cases scan cs d false false with
  | none => simp
  | some n => simp only [Option.map_some']; congr 1; simp; omega

theorem neutral_safe (xs : List Char)
    (h : ∀ c ∈ xs, c ≠ '\x22' ∧ c ≠ '\x7b' ∧ c ≠ '\x7d') : Neutral xs := by
  induction xs with
  | nil => exact neutral_nil
  | cons c xs ih =>
    intro cs d hd
    have hc := h c (List.mem_cons_self c xs)
    have hxs : Neutral xs := ih fun c' hc' => h c' (List.mem_cons_of_mem _ hc')
    rw [List.cons_append, scan, if_neg (by simp), if_neg hc.1, if_neg hc.2.1,
      if_neg hc.2.2, hxs cs d hd]
    cases scan cs d false false with
    | none => simp
    | some n => simp only [Option.map_some']; congr 1; simp; omega

theorem scan_esc_str (s : List Char) :
    ∀ cs d, scan (esc_str s ++ cs) d true false
      = (scan cs d true false).map ((esc_str s).length + ·) := by
  induction s with
  | nil =>
    intro cs d
    simp [esc_str]
  | cons c s ih =>
    intro cs d
    have hesc : esc_str (c :: s) = esc_char c ++ esc_str s := by
      simp [esc_str]
    rw [hesc, List.append_assoc]
    by_cases hq : c = '\x22' ∨ c = '\\'
    · rw [esc_char, if_pos hq, List.cons_append, List.cons_append, List.nil_append]
      rw [scan, if_pos rfl, if_neg (by simp), if_pos rfl]
      rw [scan, if_pos rfl, if_pos rfl]
      rw [ih cs d]
      cases scan cs d true false with
      | none => simp
      | some n => simp only [Option.map_some']; congr 1; simp [esc_char, if_pos hq]; omega
    · rw [esc_char, if_neg hq, List.cons_append, List.nil_append]
      push_neg at hq
      rw [scan, if_pos rfl, if_neg (by simp), if_neg hq.2, if_neg hq.1]
      rw [ih cs d]
      cases scan cs d true false with
      | none => simp
      | some n => simp only [Option.map_some']; congr 1; simp [esc_char, if_neg (not_or.mpr hq)]; omega

theorem neutral_str_lit (s : List Char) : Neutral (str_lit s) := by
  intro cs d hd
  rw [str_lit]
  have h1 : ('\x22' :: esc_str s ++ ['\x22']) ++ cs
      = '\x22' :: (esc_str s ++ ('\x22' :: cs)) := by simp
  rw [h1, scan, if_neg (by simp), if_pos rfl]
  rw [scan_esc_str s ('\x22' :: cs) d]
  rw [scan, if_pos rfl, if_neg (by simp), if_neg (by decide), if_pos rfl]
  cases scan cs d false false with
  | none => simp
  | some n => simp only [Option.map_some']; congr 1; simp [str_lit]; omega

theorem neutral_braces (m : List Char) (hm : Neutral m) :
    Neutral ('\x7b' :: m ++ ['\x7d']) := by
  intro cs d hd
  have h1 : ('\x7b' :: m ++ ['\x7d']) ++ cs = '\x7b' :: (m ++ ('\x7d' :: cs)) := by simp
  rw [h1, scan, if_neg (by simp), if_neg (by decide), if_pos rfl]
  rw [hm ('\x7d' :: cs) (d + 1) (by omega)]
  rw [scan, if_neg (by simp), if_neg (by decide), if_neg (by decide), if_pos rfl,
    if_neg (by omega)]
  have h2 : d + 1 - 1 = d := by omega
  rw [h2]
  cases scan cs d false false with
  | none => simp
  | some n => simp only [Option.map_some']; congr 1; simp; omega

theorem digit_char_safe :
    ∀ k < 10, Nat.digitChar k ≠ '\x22' ∧ Nat.digitChar k ≠ '\x7b' ∧ Nat.digitChar k ≠ '\x7d' := by
  decide

theorem nat_chars_aux_safe (fuel : Nat) :
    ∀ n, ∀ c ∈ nat_chars_aux fuel n, c ≠ '\x22' ∧ c ≠ '\x7b' ∧ c ≠ '\x7d' := by
  induction fuel with
  | zero => intro n c hc; simp [nat_chars_aux] at hc
  | succ fuel ih =>
    intro n c hc
    rw [nat_chars_aux] at hc
    by_cases h : n < 10
    · rw [if_pos h] at hc
      simp at hc
      subst hc
      exact digit_char_safe n h
    · rw [if_neg h] at hc
      rcases List.mem_append.mp hc with h1 | h2
      · exact ih (n / 10) c h1
      · simp at h2
        subst h2
        exact digit_char_safe (n % 10) (Nat.mod_lt n (by omega))

theorem int_chars_safe (n : Int) :
    ∀ c ∈ int_chars n, c ≠ '\x22' ∧ c ≠ '\x7b' ∧ c ≠ '\x7d' := by
  intro c hc
  rw [int_chars] at hc
  by_cases h : n < 0
  · rw [if_pos h] at hc
    rcases List.mem_cons.mp hc with h1 | h2
    · subst h1; decide
    · exact nat_chars_aux_safe _ _ c h2
  · rw [if_neg h] at hc
    exact nat_chars_aux_safe _ _ c hc

theorem serialize_jnull : serialize .jnull = "null".toList := rfl

theorem serialize_jbool (b : Bool) :
    serialize (.jbool b) = if b then "true".toList else "false".toList := by
  cases b <;> rfl

theorem serialize_jint (n : Int) : serialize (.jint n) = int_chars n := rfl

theorem serialize_jstr (s : List Char) : serialize (.jstr s) = str_lit s := rfl

theorem serialize_jarr (xs : JArr) :
    serialize (.jarr xs) = '[' :: serialize_elems xs ++ [']'] := rfl

theorem serialize_jobj (kvs : JDict) :
    serialize (.jobj kvs) = '\x7b' :: serialize_members kvs ++ ['\x7d'] := rfl

theorem serialize_elems_single (v : JVal) : serialize_elems (.cons v .nil) = serialize v := rfl

theorem serialize_elems_more (v v' : JVal) (r : JArr) :
    serialize_elems (.cons v (.cons v' r))
      = serialize v ++ ',' :: serialize_elems (.cons v' r) := rfl

theorem serialize_members_single (k : List Char) (v : JVal) :
    serialize_members (.cons k v .nil) = str_lit k ++ ':' :: serialize v := rfl

theorem serialize_members_more (k : List Char) (v : JVal) (k' : List Char) (v' : JVal) (r : JDict) :
    serialize_members (.cons k v (.cons k' v' r))
      = str_lit k ++ ':' :: serialize v ++ ',' :: serialize_members (.cons k' v' r) := rfl

theorem neutral_case_null : Neutral (serialize .jnull) :=
  neutral_safe _ (by decide)

theorem neutral_case_bool (b : Bool) : Neutral (serialize (.jbool b)) := by
  cases b <;> exact neutral_safe _ (by decide)

theorem neutral_case_int (n : Int) : Neutral (serialize (.jint n)) := by
  rw [serialize_jint]
  exact neutral_safe _ (int_chars_safe n)

theorem neutral_case_str (s : List Char) : Neutral (serialize (.jstr s)) := by
  rw [serialize_jstr]
  exact neutral_str_lit s

theorem neutral_case_arr (xs : JArr) (ih : Neutral (serialize_elems xs)) :
    Neutral (serialize (.jarr xs)) := by
  rw [serialize_jarr]
  have h1 : '[' :: serialize_elems xs ++ [']']
      = ['['] ++ (serialize_elems xs ++ [']']) := by simp
  rw [h1]
  exact neutral_append (neutral_safe _ (by decide))
    (neutral_append ih (neutral_safe _ (by decide)))

theorem neutral_case_obj (kvs : JDict) (ih : Neutral (serialize_members kvs)) :
    Neutral (serialize (.jobj kvs)) := by
  rw [serialize_jobj]
  exact neutral_braces _ ih

theorem neutral_case_arr_nil : Neutral (serialize_elems .nil) := neutral_nil

theorem neutral_case_arr_cons (v : JVal) (rest : JArr)
    (ihv : Neutral (serialize v)) (ihrest : Neutral (serialize_elems rest)) :
    Neutral (serialize_elems (.cons v rest)) := by
  cases rest with
  | nil => rw [serialize_elems_single]; exact ihv
  | cons v' rest' =>
    rw [serialize_elems_more]
    have h1 : serialize v ++ ',' :: serialize_elems (JArr.cons v' rest')
        = serialize v ++ ([','] ++ serialize_elems (JArr.cons v' rest')) := by simp
    rw [h1]
    exact neutral_append ihv (neutral_append (neutral_safe _ (by decide)) ihrest)

theorem neutral_case_dict_nil : Neutral (serialize_members .nil) := neutral_nil

theorem neutral_case_dict_cons (k : List Char) (v : JVal) (rest : JDict)
    (ihv : Neutral (serialize v)) (ihrest : Neutral (serialize_members rest)) :
    Neutral (serialize_members (.cons k v rest)) := by
  cases rest with
  | nil =>
    rw [serialize_members_single]
    have h1 : str_lit k ++ ':' :: serialize v
        = str_lit k ++ ([':'] ++ serialize v) := by simp
    rw [h1]
    exact neutral_append (neutral_str_lit k)
      (neutral_append (neutral_safe _ (by decide)) ihv)
  | cons k' v' rest' =>
    rw [serialize_members_more]
    have h1 : str_lit k ++ ':' :: serialize v ++ ',' :: serialize_members (JDict.cons k' v' rest')
        = str_lit k ++ ([':'] ++ (serialize v ++ ([','] ++ serialize_members (JDict.cons k' v' rest')))) := by
      simp
    rw [h1]
    exact neutral_append (neutral_str_lit k)
      (neutral_append (neutral_safe _ (by decide))
        (neutral_append ihv (neutral_append (neutral_safe _ (by decide)) ihrest)))

theorem neutral_serialize : ∀ v : JVal, Neutral (serialize v) :=
  @JVal.rec (fun v => Neutral (serialize v))
    (fun xs => Neutral (serialize_elems xs))
    (fun kvs => Neutral (serialize_members kvs))
    neutral_case_null neutral_case_bool neutral_case_int neutral_case_str
    neutral_case_arr neutral_case_obj
    neutral_case_arr_nil neutral_case_arr_cons
    neutral_case_dict_nil neutral_case_dict_cons

theorem neutral_serialize_members : ∀ kvs : JDict, Neutral (serialize_members kvs) :=
  @JDict.rec (fun v => Neutral (serialize v))
    (fun xs => Neutral (serialize_elems xs))
    (fun kvs => Neutral (serialize_members kvs))
    neutral_case_null neutral_case_bool neutral_case_int neutral_case_str
    neutral_case_arr neutral_case_obj
    neutral_case_arr_nil neutral_case_arr_cons
    neutral_case_dict_nil neutral_case_dict_cons

theorem scan_serialize_obj (kvs : JDict) (rest : List Char) :
    scan (serialize (.jobj kvs) ++ rest) 0 false false
      = some (serialize (.jobj kvs)).length := by
  rw [serialize_jobj]
  have h1 : ('\x7b' :: serialize_members kvs ++ ['\x7d']) ++ rest
      = '\x7b' :: (serialize_members kvs ++ ('\x7d' :: rest)) := by simp
  rw [h1, scan, if_neg (by simp), if_neg (by decide), if_pos rfl]
  have h0 : (0 : Int) + 1 = 1 := by norm_num
  rw [h0, neutral_serialize_members kvs ('\x7d' :: rest) 1 (by omega)]
  rw [scan, if_neg (by simp), if_neg (by decide), if_neg (by decide), if_pos rfl,
    if_pos (by omega)]
  simp

theorem starts_with_append (p t : List Char) : starts_with p (p ++ t) = true := by
  induction p with
  | nil => rfl
  | cons c p ih => simp [starts_with, ih]

theorem find_sub_of_starts (sub s : List Char) (h : starts_with sub s = true) :
    find_sub sub s = some 0 := by
  cases s with
  | nil => rw [find_sub, if_pos h]
  | cons c rest => rw [find_sub, if_pos h]

theorem find_sub_char_append (c : Char) (pre t : List Char) (h : c ∉ pre) :
    find_sub [c] (pre ++ c :: t) = some pre.length := by
  induction pre with
  | nil =>
    apply find_sub_of_starts
    simp [starts_with]
  | cons p ps ih =>
    have hcp : c ≠ p := fun he => h (by simp [he])
    have hps : c ∉ ps := fun he => h (List.mem_cons_of_mem _ he)
    rw [List.cons_append, find_sub, if_neg, ih hps]
    · simp
    · simp [starts_with]
      intro he
      exact absurd he hcp

theorem drop_len_append (a b : List Char) : (a ++ b).drop a.length = b := by
  simp

theorem take_len_append (a b : List Char) : (a ++ b).take a.length = a := by
  simp

/-! ## Claim theorems -/

/-- C1: the braced-segment extractor finds the first marker occurrence
and the first opening brace from there, scans with a depth counter, an
inside-string flag and an escape-pending flag, and returns nothing when
the marker is absent, when no brace follows it, or when the depth never
returns to zero; and for marker-prefixed text whose enclosed content is
(serialized) valid JSON — brace characters inside string literals
included — it returns exactly that serialized object, which therefore
parses as valid JSON. -/
theorem extract_braced_json_correct :
    (∀ text marker, find_sub marker text = none →
      extract_braced_json text marker = none)
    ∧ (∀ text marker i, find_sub marker text = some i →
      find_sub ['\x7b'] (text.drop i) = none →
      extract_braced_json text marker = none)
    ∧ (∀ text marker i j, find_sub marker text = some i →
      find_sub ['\x7b'] (text.drop i) = some j →
      scan (text.drop (i + j)) 0 false false = none →
      extract_braced_json text marker = none)
    ∧ (∀ marker kvs rest, '\x7b' ∉ marker →
      extract_braced_json (marker ++ serialize (.jobj kvs) ++ rest) marker
        = some (serialize (.jobj kvs))) := by
  refine ⟨?_, ?_, ?_, ?_⟩
  · intro text marker h
    rw [extract_braced_json, h]
  · intro text marker i h1 h2
    rw [extract_braced_json]
    simp only [h1, h2]
  · intro text marker i j h1 h2 h3
    rw [extract_braced_json]
    simp only [h1, h2, h3]
  · intro marker kvs rest hm
    have hbody : serialize (.jobj kvs) = '\x7b' :: (serialize_members kvs ++ ['\x7d']) := by
      rw [serialize_jobj]; simp
    have hfind1 : find_sub marker (marker ++ serialize (.jobj kvs) ++ rest) = some 0 := by
      apply find_sub_of_starts
      rw [List.append_assoc]
      exact starts_with_append marker _
    have hshape : marker ++ serialize (.jobj kvs) ++ rest
        = marker ++ '\x7b' :: ((serialize_members kvs ++ ['\x7d']) ++ rest) := by
      rw [hbody]; simp
    have hfind2 : find_sub ['\x7b'] ((marker ++ serialize (.jobj kvs) ++ rest).drop 0)
        = some marker.length := by
      rw [List.drop_zero, hshape]
      exact find_sub_char_append '\x7b' marker _ hm
    have hdrop : (marker ++ serialize (.jobj kvs) ++ rest).drop (0 + marker.length)
        = serialize (.jobj kvs) ++ rest := by
      rw [Nat.zero_add, List.append_assoc]
      exact drop_len_append marker _
    have hscan := scan_serialize_obj kvs rest
    rw [extract_braced_json]
    simp only [hfind1, hfind2, hdrop, hscan]
    rw [take_len_append]

/-- Witness for C1: a concrete marker-prefixed serialized object with a
brace and a quote inside a string value is extracted exactly. -/
theorem extract_braced_json_correct_witness :
    extract_braced_json
        ("WML = ".toList ++ serialize (.jobj (.cons "a".toList (.jstr "x\x7by".toList) .nil))
          ++ ";".toList)
        "WML = ".toList
      = some (serialize (.jobj (.cons "a".toList (.jstr "x\x7by".toList) .nil))) :=
  extract_braced_json_correct.2.2.2 "WML = ".toList
    (.cons "a".toList (.jstr "x\x7by".toList) .nil) ";".toList (by decide)

theorem bucket_nodes_foldl (skuNorm : List Char) :
    ∀ (nodes : List JDict) (acc : List JDict × List JDict),
      List.foldl
        (fun acc node =>
          match first_str node title_keys with
          | none => acc
          | some _ =>
            if exact_match node skuNorm then (acc.1 ++ [node], acc.2)
            else (acc.1, acc.2 ++ [node]))
        acc nodes
      = (acc.1 ++ nodes.filter (fun n => has_title n && exact_match n skuNorm),
         acc.2 ++ nodes.filter (fun n => has_title n && !exact_match n skuNorm)) := by
  intro nodes
  induction nodes with
  | nil => intro acc; simp
  | cons n ns ih =>
    intro acc
    rw [List.foldl_cons, ih]
    rcases hfs : first_str n title_keys with _ | t
    · simp [List.filter_cons, has_title, hfs]
    · by_cases hex : exact_match n skuNorm
      · simp [List.filter_cons, has_title, hfs, hex]
      · simp [List.filter_cons, has_title, hfs, hex]

theorem bucket_nodes_eq (nodes : List JDict) (skuNorm : List Char) :
    bucket_nodes nodes skuNorm
      = (nodes.filter (fun n => has_title n && exact_match n skuNorm),
         nodes.filter (fun n => has_title n && !exact_match n skuNorm)) := by
  rw [bucket_nodes, bucket_nodes_foldl skuNorm nodes ([], [])]
  simp

theorem resolve_product_eq (data : JVal) (sku : List Char) :
    resolve_product data sku
      = (((walk_items data).filter fun n => has_title n && exact_match n (py_strip sku)).head?
          <|> ((walk_items data).filter fun n => has_title n && !exact_match n (py_strip sku)).head?) := by
  rw [resolve_product]
  simp only [bucket_nodes_eq]
  rcases hc : (walk_items data).filter (fun n => has_title n && exact_match n (py_strip sku)) with _ | ⟨x, xs⟩
  · rcases hf : (walk_items data).filter (fun n => has_title n && !exact_match n (py_strip sku)) with _ | ⟨y, ys⟩
    · simp [Option.orElse]
    · simp [Option.orElse]
  · simp [Option.orElse]

/-- C2: the product resolver walks mapping nodes in pre-order, discards
nodes with no resolvable title, buckets the rest into exact identifier
matches and fallbacks, and returns the first exact node in walk order,
else the first fallback, else nothing; a tree with no titled node yields
nothing, and a tree whose titled nodes are one matching and one
non-matching node yields the matching one in either walk order. -/
theorem resolve_product_spec :
    (∀ data sku, resolve_product data sku
      = (((walk_items data).filter fun n => has_title n && exact_match n (py_strip sku)).head?
          <|> ((walk_items data).filter fun n => has_title n && !exact_match n (py_strip sku)).head?))
    ∧ (∀ data sku, (walk_items data).filter has_title = [] →
      resolve_product data sku = none)
    ∧ (∀ data sku a b,
      ((walk_items data).filter has_title = [a, b]
        ∨ (walk_items data).filter has_title = [b, a]) →
      exact_match a (py_strip sku) = true →
      exact_match b (py_strip sku) = false →
      resolve_product data sku = some a) := by
  refine ⟨fun data sku => resolve_product_eq data sku, ?_, ?_⟩
  · intro data sku h
    have hall : ∀ n ∈ walk_items data, ¬ (has_title n = true) := by
      intro n hn
      exact (List.filter_eq_nil_iff.mp h) n hn
    rw [resolve_product_eq]
    have h1 : (walk_items data).filter (fun n => has_title n && exact_match n (py_strip sku)) = [] := by
      apply List.filter_eq_nil_iff.mpr
      intro n hn
      simp [hall n hn]
    have h2 : (walk_items data).filter (fun n => has_title n && !exact_match n (py_strip sku)) = [] := by
      apply List.filter_eq_nil_iff.mpr
      intro n hn
      simp [hall n hn]
    rw [h1, h2]
    rfl
  · intro data sku a b horder hea heb
    rw [resolve_product_eq]
    have hc : (walk_items data).filter (fun n => has_title n && exact_match n (py_strip sku))
        = ((walk_items data).filter has_title).filter (fun n => exact_match n (py_strip sku)) := by
      rw [List.filter_filter]
      exact List.filter_congr fun n _ => Bool.and_comm _ _
    rcases horder with h | h
    · rw [hc, h]
      simp [List.filter_cons, hea, heb]
    · rw [hc, h]
      simp [List.filter_cons, hea, heb]

/-- Witness for C2: a two-product tree where the second titled node
matches the requested SKU is resolved to the matching node in either
walk order. -/
theorem resolve_product_spec_witness :
    resolve_product
        (.jarr (.cons (.jobj (.cons "name".toList (.jstr "Prod B".toList)
            (.cons "sku".toList (.jstr "88".toList) .nil)))
          (.cons (.jobj (.cons "name".toList (.jstr "Prod A".toList)
            (.cons "sku".toList (.jstr "77".toList) .nil))) .nil)))
        "77".toList
      = some (.cons "name".toList (.jstr "Prod A".toList)
          (.cons "sku".toList (.jstr "77".toList) .nil)) :=
  resolve_product_spec.2.2
    (.jarr (.cons (.jobj (.cons "name".toList (.jstr "Prod B".toList)
        (.cons "sku".toList (.jstr "88".toList) .nil)))
      (.cons (.jobj (.cons "name".toList (.jstr "Prod A".toList)
        (.cons "sku".toList (.jstr "77".toList) .nil))) .nil)))
    "77".toList
    (.cons "name".toList (.jstr "Prod A".toList)
      (.cons "sku".toList (.jstr "77".toList) .nil))
    (.cons "name".toList (.jstr "Prod B".toList)
      (.cons "sku".toList (.jstr "88".toList) .nil))
    (Or.inr (by decide)) (by decide) (by decide)

/-- C3: the classifier maps each fetch to exactly one status by the
first matching rule in fixed priority: timeout to not_found; 403/429 or
an anti-automation marker or /blocked to blocked (HTTP 429 regardless of
page content); 404 or a not-found marker or /errors/ to not_found; no
payload to not_found; no facts to not_found; explicit out-of-stock to
out_of_stock even with a price; a present price to ok; else not_found. -/
theorem fetch_sku_store_data_status_spec :
    (∀ sku, (fetch_sku_store_data .timed_out sku).status = .not_found)
    ∧ (∀ p sku, (p.status_code = some 403 ∨ p.status_code = some 429)
        ∨ page_is_blocked p.html p.final_url = true →
      (fetch_sku_store_data (.loaded p) sku).status = .blocked)
    ∧ (∀ p sku, ¬ ((p.status_code = some 403 ∨ p.status_code = some 429)
        ∨ page_is_blocked p.html p.final_url = true) →
      (p.status_code = some 404 ∨ page_is_not_found p.html p.final_url = true) →
      (fetch_sku_store_data (.loaded p) sku).status = .not_found)
    ∧ (∀ p sku, ¬ ((p.status_code = some 403 ∨ p.status_code = some 429)
        ∨ page_is_blocked p.html p.final_url = true) →
      ¬ (p.status_code = some 404 ∨ page_is_not_found p.html p.final_url = true) →
      p.embedded = none →
      (fetch_sku_store_data (.loaded p) sku).status = .not_found)
    ∧ (∀ p sku data, ¬ ((p.status_code = some 403 ∨ p.status_code = some 429)
        ∨ page_is_blocked p.html p.final_url = true) →
      ¬ (p.status_code = some 404 ∨ page_is_not_found p.html p.final_url = true) →
      p.embedded = some data →
      extract_product_fields data sku = none →
      (fetch_sku_store_data (.loaded p) sku).status = .not_found)
    ∧ (∀ p sku data facts, ¬ ((p.status_code = some 403 ∨ p.status_code = some 429)
        ∨ page_is_blocked p.html p.final_url = true) →
      ¬ (p.status_code = some 404 ∨ page_is_not_found p.html p.final_url = true) →
      p.embedded = some data →
      extract_product_fields data sku = some facts →
      facts.in_stock = some false →
      (fetch_sku_store_data (.loaded p) sku).status = .out_of_stock)
    ∧ (∀ p sku data facts, ¬ ((p.status_code = some 403 ∨ p.status_code = some 429)
        ∨ page_is_blocked p.html p.final_url = true) →
      ¬ (p.status_code = some 404 ∨ page_is_not_found p.html p.final_url = true) →
      p.embedded = some data →
      extract_product_fields data sku = some facts →
      facts.in_stock ≠ some false →
      facts.price_current ≠ none →
      (fetch_sku_store_data (.loaded p) sku).status = .ok)
    ∧ (∀ p sku data facts, ¬ ((p.status_code = some 403 ∨ p.status_code = some 429)
        ∨ page_is_blocked p.html p.final_url = true) →
      ¬ (p.status_code = some 404 ∨ page_is_not_found p.html p.final_url = true) →
      p.embedded = some data →
      extract_product_fields data sku = some facts →
      facts.in_stock ≠ some false →
      facts.price_current = none →
      (fetch_sku_store_data (.loaded p) sku).status = .not_found) := by
  refine ⟨fun sku => rfl, ?_, ?_, ?_, ?_, ?_, ?_, ?_⟩
  · intro p sku h
    rw [fetch_sku_store_data, if_pos h]
  · intro p sku hb hn
    rw [fetch_sku_store_data, if_neg hb, if_pos hn]
  · intro p sku hb hn he
    rw [fetch_sku_store_data, if_neg hb, if_neg hn]
    simp only [he]
  · intro p sku data hb hn he hx
    rw [fetch_sku_store_data, if_neg hb, if_neg hn]
    simp only [he, hx]
  · intro p sku data facts hb hn he hx hs
    rw [fetch_sku_store_data, if_neg hb, if_neg hn]
    simp only [he, hx, if_pos hs]
  · intro p sku data facts hb hn he hx hs hp
    rw [fetch_sku_store_data, if_neg hb, if_neg hn]
    simp only [he, hx]
    rw [if_neg hs, if_pos hp]
  · intro p sku data facts hb hn he hx hs hp
    rw [fetch_sku_store_data, if_neg hb, if_neg hn]
    simp only [he, hx]
    rw [if_neg hs, if_neg (by simp [hp])]

/-- Witness for C3: an HTTP 429 response is classified blocked even on a
page whose text and URL carry no marker at all. -/
theorem fetch_sku_store_data_status_spec_witness :
    (fetch_sku_store_data
        (.loaded ⟨some 429, "<html>ordinary product page</html>".toList,
          "https://www.walmart.ca/fr/ip/123".toList, none⟩) "123".toList).status
      = .blocked :=
  fetch_sku_store_data_status_spec.2.1
    ⟨some 429, "<html>ordinary product page</html>".toList,
      "https://www.walmart.ca/fr/ip/123".toList, none⟩ "123".toList
    (Or.inl (Or.inr rfl))

theorem number_from_jint (n : Int) : number_from (.jint n) = some (n : ℚ) := by
  simp [number_from]

theorem number_from_jbool (b : Bool) :
    number_from (.jbool b) = some (if b then 1 else 0) := by
  simp [number_from]

theorem number_from_jnull : number_from .jnull = none := by
  simp [number_from]

theorem number_from_jarr (xs : JArr) : number_from (.jarr xs) = none := by
  simp [number_from]

theorem number_from_jstr (s : List Char) :
    number_from (.jstr s)
      = (if ((s.filter keep_num_char).filter (· ≠ ',')).isEmpty then none
         else py_float ((s.filter keep_num_char).filter (· ≠ ','))) := by
  simp [number_from]

theorem number_from_jobj (kvs : JDict) :
    number_from (.jobj kvs) = num_from_dict kvs number_keys := by
  rw [number_from]

theorem num_from_key_eq :
    ∀ (kvs : JDict) (key : List Char),
      num_from_key kvs key = (dlookup kvs key).map number_from :=
  @JDict.rec (fun _ => True) (fun _ => True)
    (fun kvs => ∀ key, num_from_key kvs key = (dlookup kvs key).map number_from)
    trivial (fun _ => trivial) (fun _ => trivial) (fun _ => trivial)
    (fun _ _ => trivial) (fun _ _ => trivial)
    trivial (fun _ _ _ _ => trivial)
    (fun key => by rw [num_from_key]; rfl)
    (fun k' v rest _ ih key => by
      rw [num_from_key, dlookup]
      by_cases h : k' = key
      · rw [if_pos h, if_pos h]; rfl
      · rw [if_neg h, if_neg h, ih key])

theorem num_from_dict_nil (kvs : JDict) : num_from_dict kvs [] = none := by
  rw [num_from_dict]

theorem num_from_dict_absent (kvs : JDict) (key : List Char) (rest : List (List Char))
    (h : dlookup kvs key = none) :
    num_from_dict kvs (key :: rest) = num_from_dict kvs rest := by
  rw [num_from_dict, num_from_key_eq, h]
  rfl

theorem num_from_dict_hit (kvs : JDict) (key : List Char) (rest : List (List Char))
    (v : JVal) (q : ℚ) (h : dlookup kvs key = some v) (hv : number_from v = some q) :
    num_from_dict kvs (key :: rest) = some q := by
  rw [num_from_dict, num_from_key_eq, h]
  simp only [Option.map_some']
  rw [hv]

theorem num_from_dict_skip (kvs : JDict) (key : List Char) (rest : List (List Char))
    (v : JVal) (h : dlookup kvs key = some v) (hv : number_from v = none) :
    num_from_dict kvs (key :: rest) = num_from_dict kvs rest := by
  rw [num_from_dict, num_from_key_eq, h]
  simp only [Option.map_some']
  rw [hv]

theorem filter_idem (l : List Char) (p : Char → Bool) :
    (l.filter p).filter p = l.filter p := by
  rw [List.filter_filter]
  exact List.filter_congr fun a _ => by cases p a <;> rfl

theorem filter_swap (l : List Char) (p q : Char → Bool) :
    (l.filter p).filter q = (l.filter q).filter p := by
  rw [List.filter_filter, List.filter_filter]
  exact List.filter_congr fun a _ => Bool.and_comm _ _

/-- C4 counterexample: the claim maps every input other than native
numbers, strings and mappings to not-a-number, but the boolean true is a
Python int for the isinstance check and normalizes to 1.0. -/
theorem number_from_bool_cex :
    number_from (.jbool true) ≠ none ∧ number_from (.jbool true) = some 1 := by
  constructor
  · rw [number_from_jbool]
    simp
  · rw [number_from_jbool]
    rfl

/-- C4 (amended): numeric normalization returns native numbers as
rationals; booleans, being Python ints, normalize to 1.0/0.0; a string
is stripped to digits/dot/comma/minus, commas removed, and parsed as a
decimal, with failure or emptiness yielding nothing; a mapping is probed
recursively under the number keys in order, a present key whose value
does not normalize falling through to the next; null and lists yield
nothing. -/
theorem number_from_spec :
    (∀ n : Int, number_from (.jint n) = some (n : ℚ))
    ∧ number_from (.jstr "$1,234.50".toList) = some (1234.5 : ℚ)
    ∧ number_from (.jstr "—".toList) = none
    ∧ number_from (.jstr "".toList) = none
    ∧ (∀ s, number_from (.jstr s) = number_from (.jstr (s.filter keep_num_char)))
    ∧ (∀ s, number_from (.jstr s) = number_from (.jstr (s.filter (· ≠ ','))))
    ∧ (∀ kvs, number_from (.jobj kvs) = num_from_dict kvs number_keys)
    ∧ (∀ kvs key rest v q, dlookup kvs key = some v → number_from v = some q →
        num_from_dict kvs (key :: rest) = some q)
    ∧ (∀ kvs key rest v, dlookup kvs key = some v → number_from v = none →
        num_from_dict kvs (key :: rest) = num_from_dict kvs rest)
    ∧ (∀ kvs key rest, dlookup kvs key = none →
        num_from_dict kvs (key :: rest) = num_from_dict kvs rest)
    ∧ (∀ kvs, num_from_dict kvs [] = none)
    ∧ number_from .jnull = none
    ∧ (∀ xs, number_from (.jarr xs) = none)
    ∧ (∀ b, number_from (.jbool b) = some (if b then 1 else 0)) := by
  refine ⟨number_from_jint, ?_, ?_, ?_, ?_, ?_, number_from_jobj,
    num_from_dict_hit, num_from_dict_skip, num_from_dict_absent,
    num_from_dict_nil, number_from_jnull, number_from_jarr, number_from_jbool⟩
  · rw [number_from_jstr,
      show ("$1,234.50".toList.filter keep_num_char).filter (· ≠ ',') = "1234.50".toList
        from by decide,
      if_neg (by decide)]
    have hsplit : List.splitOn '.' ['1', '2', '3', '4', '.', '5', '0']
        = [['1', '2', '3', '4'], ['5', '0']] := by decide
    simp [py_float, hsplit]
    rw [show digits_val ['1', '2', '3', '4'] = 1234 from by decide,
      show digits_val ['5', '0'] = 50 from by decide]
    norm_num
  · rw [number_from_jstr]
    decide
  · rw [number_from_jstr]
    decide
  · intro s
    rw [number_from_jstr, number_from_jstr, filter_idem]
  · intro s
    rw [number_from_jstr, number_from_jstr,
      filter_swap s (· ≠ ',') keep_num_char, filter_idem]

/-- Witness for C4: the dict probe returns the normalized value of a
present price key. -/
theorem number_from_spec_witness :
    num_from_dict (.cons "price".toList (.jstr "12".toList) .nil)
        ["price".toList] = some 12 :=
  number_from_spec.2.2.2.2.2.2.2.1
    (.cons "price".toList (.jstr "12".toList) .nil) "price".toList []
    (.jstr "12".toList) 12 (by decide)
    (by
      rw [number_from_jstr,
        show ("12".toList.filter keep_num_char).filter (· ≠ ',') = "12".toList
          from by decide,
        if_neg (by decide)]
      simp [py_float, show List.splitOn '.' ['1', '2'] = [['1', '2']] from by decide]
      rw [show digits_val ['1', '2'] = 12 from by decide]
      norm_num)

/-- C5 counterexample: the claim says availability text "unavailable"
yields a false stock flag, but the true-token check runs first and
"available" is a substring of "unavailable", so the flag is true. -/
theorem in_stock_unavailable_cex :
    in_stock_from
        (.cons "name".toList (.jstr "X".toList)
          (.cons "availabilityStatus".toList (.jstr "unavailable".toList) .nil))
        (first_str
          (.cons "name".toList (.jstr "X".toList)
            (.cons "availabilityStatus".toList (.jstr "unavailable".toList) .nil))
          availability_keys)
      = some true
    ∧ (extract_product_fields
        (.jobj (.cons "name".toList (.jstr "X".toList)
          (.cons "availabilityStatus".toList (.jstr "unavailable".toList) .nil)))
        "9".toList).map ProductFacts.in_stock
      = some (some true) := by
  decide

/-- C5 (amended): the stock flag is the explicit inStock boolean when
present; otherwise the true tokens are probed first and any match yields
true, then the false tokens and any match yields false, else unknown; so
"In Stock – Pickup Today" yields true, "Out of stock" yields false,
"Ships in 2 days" yields unknown, and "unavailable" (which contains
"available") yields true, and the flag of the returned facts is exactly
this derivation on the resolved node. -/
theorem in_stock_spec :
    (∀ product avail b, dlookup product "inStock".toList = some (.jbool b) →
      in_stock_from product avail = some b)
    ∧ (∀ product avail, (∀ b, dlookup product "inStock".toList ≠ some (.jbool b)) →
      (["in stock".toList, "available".toList, "pickup".toList].any
        (fun t => contains_sub (lower_chars (avail.getD [])) t) = true) →
      in_stock_from product avail = some true)
    ∧ (∀ product avail, (∀ b, dlookup product "inStock".toList ≠ some (.jbool b)) →
      (["in stock".toList, "available".toList, "pickup".toList].any
        (fun t => contains_sub (lower_chars (avail.getD [])) t) = false) →
      (["out of stock".toList, "unavailable".toList, "sold out".toList,
        "rupture".toList].any
        (fun t => contains_sub (lower_chars (avail.getD [])) t) = true) →
      in_stock_from product avail = some false)
    ∧ (∀ product avail, (∀ b, dlookup product "inStock".toList ≠ some (.jbool b)) →
      (["in stock".toList, "available".toList, "pickup".toList].any
        (fun t => contains_sub (lower_chars (avail.getD [])) t) = false) →
      (["out of stock".toList, "unavailable".toList, "sold out".toList,
        "rupture".toList].any
        (fun t => contains_sub (lower_chars (avail.getD [])) t) = false) →
      in_stock_from product avail = none)
    ∧ in_stock_from .nil (some "In Stock – Pickup Today".toList) = some true
    ∧ in_stock_from .nil (some "Out of stock".toList) = some false
    ∧ in_stock_from .nil (some "Ships in 2 days".toList) = none
    ∧ (∀ data sku f, extract_product_fields data sku = some f →
      ∃ p, resolve_product data sku = some p
        ∧ f.in_stock = in_stock_from p (first_str p availability_keys)) := by
  refine ⟨?_, ?_, ?_, ?_, by decide, by decide, by decide, ?_⟩
  · intro product avail b h
    simp only [in_stock_from, h]
  · intro product avail hnb hany
    rcases hdl : dlookup product "inStock".toList with _ | v
    · simp only [in_stock_from, hdl]
      rw [if_pos hany]
    · cases v with
      | jbool b => exact absurd hdl (hnb b)
      | jnull => simp only [in_stock_from, hdl]; rw [if_pos hany]
      | jint n => simp only [in_stock_from, hdl]; rw [if_pos hany]
      | jstr s => simp only [in_stock_from, hdl]; rw [if_pos hany]
      | jarr xs => simp only [in_stock_from, hdl]; rw [if_pos hany]
      | jobj kvs => simp only [in_stock_from, hdl]; rw [if_pos hany]
  · intro product avail hnb hany1 hany2
    have hn1 : ¬ (["in stock".toList, "available".toList, "pickup".toList].any
        (fun t => contains_sub (lower_chars (avail.getD [])) t) = true) := by
      rw [hany1]
      decide
    rcases hdl : dlookup product "inStock".toList with _ | v
    · simp only [in_stock_from, hdl]
      rw [if_neg hn1, if_pos hany2]
    · cases v with
      | jbool b => exact absurd hdl (hnb b)
      | jnull => simp only [in_stock_from, hdl]; rw [if_neg hn1, if_pos hany2]
      | jint n => simp only [in_stock_from, hdl]; rw [if_neg hn1, if_pos hany2]
      | jstr s => simp only [in_stock_from, hdl]; rw [if_neg hn1, if_pos hany2]
      | jarr xs => simp only [in_stock_from, hdl]; rw [if_neg hn1, if_pos hany2]
      | jobj kvs => simp only [in_stock_from, hdl]; rw [if_neg hn1, if_pos hany2]
  · intro product avail hnb hany1 hany2
    have hn1 : ¬ (["in stock".toList, "available".toList, "pickup".toList].any
        (fun t => contains_sub (lower_chars (avail.getD [])) t) = true) := by
      rw [hany1]
      decide
    have hn2 : ¬ (["out of stock".toList, "unavailable".toList, "sold out".toList,
        "rupture".toList].any
        (fun t => contains_sub (lower_chars (avail.getD [])) t) = true) := by
      rw [hany2]
      decide
    rcases hdl : dlookup product "inStock".toList with _ | v
    · simp only [in_stock_from, hdl]
      rw [if_neg hn1, if_neg hn2]
    · cases v with
      | jbool b => exact absurd hdl (hnb b)
      | jnull => simp only [in_stock_from, hdl]; rw [if_neg hn1, if_neg hn2]
      | jint n => simp only [in_stock_from, hdl]; rw [if_neg hn1, if_neg hn2]
      | jstr s => simp only [in_stock_from, hdl]; rw [if_neg hn1, if_neg hn2]
      | jarr xs => simp only [in_stock_from, hdl]; rw [if_neg hn1, if_neg hn2]
      | jobj kvs => simp only [in_stock_from, hdl]; rw [if_neg hn1, if_neg hn2]
  · intro data sku f h
    rcases hres : resolve_product data sku with _ | p
    · rw [extract_product_fields, hres] at h
      exact absurd h (by simp)
    · refine ⟨p, rfl, ?_⟩
      simp only [extract_product_fields, hres] at h
      rcases hti : first_str p title_keys with _ | t
      · simp [hti] at h
      · simp only [hti, Option.some.injEq] at h
        rw [← h]

/-- Witness for C5: a node with an explicit boolean stock field reports
exactly that boolean regardless of availability text. -/
theorem in_stock_spec_witness :
    in_stock_from (.cons "inStock".toList (.jbool false) .nil)
        (some "in stock".toList) = some false :=
  in_stock_spec.1 (.cons "inStock".toList (.jbool false) .nil)
    (some "in stock".toList) false (by decide)

/-- C9 counterexample: a node whose identifier is present only under id
contributes the requested SKU, not that identifier, to the facts: the
output sku reads only the node's sku entry. -/
theorem facts_sku_cex :
    ((extract_product_fields
        (.jobj (.cons "id".toList (.jstr "42".toList)
          (.cons "name".toList (.jstr "T".toList) .nil)))
        "99".toList).map ProductFacts.sku ≠ some "42".toList)
    ∧ (extract_product_fields
        (.jobj (.cons "id".toList (.jstr "42".toList)
          (.cons "name".toList (.jstr "T".toList) .nil)))
        "99".toList).map ProductFacts.sku = some "99".toList := by
  decide

/-- C9 (amended): the sku field of the facts is the Python str of the
resolved node's own sku entry when that entry is truthy, and the
requested SKU otherwise; identifiers under id or usItemId never reach
the output facts. -/
theorem facts_sku_spec :
    (∀ data sku p, resolve_product data sku = some p →
      ∀ f, extract_product_fields data sku = some f →
        f.sku = py_str (if truthy (dget p "sku".toList) then dget p "sku".toList
          else .jstr sku))
    ∧ (∀ data sku p, resolve_product data sku = some p →
      dlookup p "sku".toList = none →
      ∀ f, extract_product_fields data sku = some f → f.sku = sku) := by
  have hmain : ∀ data sku p, resolve_product data sku = some p →
      ∀ f, extract_product_fields data sku = some f →
        f.sku = py_str (if truthy (dget p "sku".toList) then dget p "sku".toList
          else .jstr sku) := by
    intro data sku p hres f h
    simp only [extract_product_fields, hres] at h
    rcases hti : first_str p title_keys with _ | t
    · simp [hti] at h
    · simp only [hti, Option.some.injEq] at h
      rw [← h]
  refine ⟨hmain, ?_⟩
  intro data sku p hres hdl f h
  rw [hmain data sku p hres f h]
  rw [dget, hdl]
  simp only [Option.getD]
  rw [if_neg (by decide)]
  rfl

/-- Witness for C9: a node with only a title gets the requested SKU as
the output sku. -/
theorem facts_sku_spec_witness :
    (ProductFacts.mk "99".toList "T".toList none none none none).sku = "99".toList :=
  facts_sku_spec.2 (.jobj (.cons "name".toList (.jstr "T".toList) .nil)) "99".toList
    (.cons "name".toList (.jstr "T".toList) .nil) (by decide) (by decide)
    (ProductFacts.mk "99".toList "T".toList none none none none) (by decide)

/-- C10: numeric normalization accepts a JSON boolean as a native
number: float(True) is 1.0, so a node whose first present current-price
key holds true carries price_current 1.0 and is classified ok on that
basis alone. -/
theorem bool_price_classified_ok :
    number_from (.jbool true) = some 1
    ∧ (extract_product_fields
        (.jobj (.cons "name".toList (.jstr "Widget".toList)
          (.cons "currentPrice".toList (.jbool true) .nil)))
        "55".toList).map ProductFacts.price_current = some (some 1)
    ∧ (fetch_sku_store_data
        (.loaded ⟨some 200, "<html>product page</html>".toList,
          "https://www.walmart.ca/fr/ip/55".toList,
          some (.jobj (.cons "name".toList (.jstr "Widget".toList)
            (.cons "currentPrice".toList (.jbool true) .nil)))⟩)
        "55".toList).status = .ok := by
  have h1 : number_from (.jbool true) = some 1 := by
    rw [number_from_jbool, if_pos rfl]
  have hpp : probe_price
      (.cons "name".toList (.jstr "Widget".toList)
        (.cons "currentPrice".toList (.jbool true) .nil)) current_price_keys
      = some 1 := by
    rw [current_price_keys, probe_price,
      show dlookup
        (.cons "name".toList (.jstr "Widget".toList)
          (.cons "currentPrice".toList (.jbool true) .nil)) "currentPrice".toList
        = some (.jbool true) from by decide]
    simp only [h1]
  have hres : resolve_product
      (.jobj (.cons "name".toList (.jstr "Widget".toList)
        (.cons "currentPrice".toList (.jbool true) .nil))) "55".toList
      = some (.cons "name".toList (.jstr "Widget".toList)
        (.cons "currentPrice".toList (.jbool true) .nil)) := by
    decide
  have hex : extract_product_fields
      (.jobj (.cons "name".toList (.jstr "Widget".toList)
        (.cons "currentPrice".toList (.jbool true) .nil))) "55".toList
      = some (ProductFacts.mk "55".toList "Widget".toList (some 1) none none none) := by
    simp only [extract_product_fields, hres,
      show first_str
        (.cons "name".toList (.jstr "Widget".toList)
          (.cons "currentPrice".toList (.jbool true) .nil)) title_keys
        = some "Widget".toList from by decide]
    rw [hpp]
    decide
  refine ⟨h1, ?_, ?_⟩
  · rw [hex]
    rfl
  · rw [fetch_sku_store_data, if_neg (by decide), if_neg (by decide)]
    simp only [hex]
    rw [if_neg (by decide), if_pos (by decide)]

/-- C6: with well-formed stores and established store context, the run
yields exactly one snapshot per store in input order, each holding
exactly one outcome per SKU in input order, a raised fetch being
replaced by the not_found failure outcome — so every (store, SKU) pair
yields exactly one outcome even when every fetch fails. -/
theorem run_stores_one_outcome_per_pair :
    (∀ (nav : JDict → NavBehavior) (fetchO : JDict → List Char → Option FetchOutcome)
      (stores : List JDict) (skus : List (List Char)),
      (∀ st ∈ stores, store_fields_ok st = true) →
      (∀ st ∈ stores, set_store_context (nav st) = .ok ()) →
      run_stores nav fetchO stores skus
        = (stores.map (fun st =>
            (st, skus.map (fun sku => (fetchO st sku).getD (failure_outcome sku)))),
           none))
    ∧ (∀ sku, (failure_outcome sku).status = .not_found ∧ (failure_outcome sku).sku = sku) := by
  constructor
  · intro nav fetchO stores
    induction stores with
    | nil => intro skus _ _; rfl
    | cons st rest ih =>
      intro skus hv hc
      rw [run_stores]
      rw [if_neg (by simp [hv st (List.mem_cons_self st rest)])]
      rw [hc st (List.mem_cons_self st rest)]
      rw [ih skus (fun s hs => hv s (List.mem_cons_of_mem _ hs))
        (fun s hs => hc s (List.mem_cons_of_mem _ hs))]
      simp
  · intro sku
    exact ⟨rfl, rfl⟩

/-- Witness for C6: two SKUs over one store, every fetch raising, still
yield one not_found outcome per pair. -/
theorem run_stores_one_outcome_per_pair_witness :
    run_stores (fun _ => ⟨false, false, false, false⟩) (fun _ _ => none)
        [JDict.cons "store_id".toList (.jstr "3100".toList)
          (.cons "store_slug".toList (.jstr "laval".toList) .nil)]
        ["10".toList, "20".toList]
      = ([(JDict.cons "store_id".toList (.jstr "3100".toList)
            (.cons "store_slug".toList (.jstr "laval".toList) .nil),
          [⟨"10".toList, .not_found, none⟩, ⟨"20".toList, .not_found, none⟩])],
         none) := by
  rw [run_stores_one_outcome_per_pair.1 (fun _ => ⟨false, false, false, false⟩)
    (fun _ _ => none)
    [JDict.cons "store_id".toList (.jstr "3100".toList)
      (.cons "store_slug".toList (.jstr "laval".toList) .nil)]
    ["10".toList, "20".toList] (by decide) (fun _ _ => rfl)]
  decide

/-- C7 counterexample: with a well-formed store listed before a store
missing its slug, the run fetches the first store's SKU (the oracle
marks fetched pairs ok) and only then stops with the configuration
error, contradicting fail-fast-before-any-fetch. -/
theorem store_validation_cex :
    run_stores (fun _ => ⟨false, false, false, false⟩)
        (fun _ sku => some ⟨sku, .ok, none⟩)
        [JDict.cons "store_id".toList (.jstr "3100".toList)
          (.cons "store_slug".toList (.jstr "laval".toList) .nil),
         JDict.cons "store_id".toList (.jstr "9".toList) .nil]
        ["7".toList]
      = ([(JDict.cons "store_id".toList (.jstr "3100".toList)
            (.cons "store_slug".toList (.jstr "laval".toList) .nil),
          [⟨"7".toList, .ok, none⟩])],
         some .config_error) := by
  decide

/-- C7 (amended): a store entry without truthy store_id and store_slug
stops the run with a configuration error when that entry is reached:
its own and later stores yield no outcomes, but every earlier
well-formed store has already been processed, one outcome per SKU. -/
theorem store_validation_spec :
    ∀ (nav : JDict → NavBehavior) (fetchO : JDict → List Char → Option FetchOutcome)
      (pre : List JDict) (bad : JDict) (post : List JDict) (skus : List (List Char)),
      (∀ st ∈ pre, store_fields_ok st = true) →
      (∀ st ∈ pre, set_store_context (nav st) = .ok ()) →
      store_fields_ok bad = false →
      run_stores nav fetchO (pre ++ bad :: post) skus
        = (pre.map (fun st =>
            (st, skus.map (fun sku => (fetchO st sku).getD (failure_outcome sku)))),
           some .config_error) := by
  intro nav fetchO pre
  induction pre with
  | nil =>
    intro bad post skus _ _ hbad
    rw [List.nil_append, run_stores, if_pos (by simp [hbad])]
    rfl
  | cons st rest ih =>
    intro bad post skus hv hc hbad
    rw [List.cons_append, run_stores]
    rw [if_neg (by simp [hv st (List.mem_cons_self st rest)])]
    rw [hc st (List.mem_cons_self st rest)]
    rw [ih bad post skus (fun s hs => hv s (List.mem_cons_of_mem _ hs))
      (fun s hs => hc s (List.mem_cons_of_mem _ hs)) hbad]
    simp

/-- Witness for C7: one well-formed store before a malformed one is
processed with a not_found outcome per SKU before the error. -/
theorem store_validation_spec_witness :
    run_stores (fun _ => ⟨false, false, false, false⟩) (fun _ _ => none)
        [JDict.cons "store_id".toList (.jstr "3100".toList)
          (.cons "store_slug".toList (.jstr "laval".toList) .nil),
         JDict.cons "store_slug".toList (.jstr "anjou".toList) .nil]
        ["1".toList, "2".toList]
      = ([(JDict.cons "store_id".toList (.jstr "3100".toList)
            (.cons "store_slug".toList (.jstr "laval".toList) .nil),
          [⟨"1".toList, .not_found, none⟩, ⟨"2".toList, .not_found, none⟩])],
         some .config_error) := by
  rw [show ([JDict.cons "store_id".toList (.jstr "3100".toList)
      (.cons "store_slug".toList (.jstr "laval".toList) .nil),
      JDict.cons "store_slug".toList (.jstr "anjou".toList) .nil])
    = [JDict.cons "store_id".toList (.jstr "3100".toList)
        (.cons "store_slug".toList (.jstr "laval".toList) .nil)]
      ++ (JDict.cons "store_slug".toList (.jstr "anjou".toList) .nil) :: []
    from rfl]
  rw [store_validation_spec (fun _ => ⟨false, false, false, false⟩) (fun _ _ => none)
    [JDict.cons "store_id".toList (.jstr "3100".toList)
      (.cons "store_slug".toList (.jstr "laval".toList) .nil)]
    (JDict.cons "store_slug".toList (.jstr "anjou".toList) .nil) []
    ["1".toList, "2".toList] (by decide) (fun _ _ => rfl) (by decide)]
  decide

/-- C8 counterexample: a navigation timeout while establishing store
context aborts the run before any of the store's SKUs are processed: no
snapshot and no outcome is produced, contradicting best-effort. -/
theorem context_failure_cex :
    run_stores (fun _ => ⟨true, false, false, false⟩)
        (fun _ sku => some ⟨sku, .ok, none⟩)
        [JDict.cons "store_id".toList (.jstr "3100".toList)
          (.cons "store_slug".toList (.jstr "laval".toList) .nil)]
        ["7".toList]
      = ([], some .context_failure) := by
  decide

/-- C8 (amended): inside _set_store_context only the two networkidle
waits are best-effort — their timeouts never change the outcome — while
a timeout of the initial goto or of the reload raises, and that raise
is uncaught: the run stops with no outcome for the store's SKUs. -/
theorem set_store_context_spec :
    (∀ nav : NavBehavior, nav.goto_times_out = true →
      set_store_context nav = .error ())
    ∧ (∀ nav : NavBehavior, nav.goto_times_out = false →
      nav.reload_times_out = true → set_store_context nav = .error ())
    ∧ (∀ nav : NavBehavior, nav.goto_times_out = false →
      nav.reload_times_out = false → set_store_context nav = .ok ())
    ∧ (∀ g r i1 i2 i1' i2',
      set_store_context ⟨g, i1, r, i2⟩ = set_store_context ⟨g, i1', r, i2'⟩)
    ∧ (∀ b, wait_network_idle b = ())
    ∧ (∀ (nav : JDict → NavBehavior) (fetchO : JDict → List Char → Option FetchOutcome)
        (st : JDict) (rest : List JDict) (skus : List (List Char)),
      store_fields_ok st = true →
      set_store_context (nav st) = .error () →
      run_stores nav fetchO (st :: rest) skus = ([], some .context_failure)) := by
  refine ⟨?_, ?_, ?_, ?_, fun _ => rfl, ?_⟩
  · intro nav h
    rw [set_store_context, if_pos h]
  · intro nav h1 h2
    rw [set_store_context, if_neg (by simp [h1]), if_pos h2]
  · intro nav h1 h2
    rw [set_store_context, if_neg (by simp [h1]), if_neg (by simp [h2])]
  · intro g r i1 i2 i1' i2'
    rw [set_store_context, set_store_context]
  · intro nav fetchO st rest skus hok herr
    rw [run_stores, if_neg (by simp [hok]), herr]

/-- Witness for C8: a store whose context goto times out yields an
aborted run with no snapshots. -/
theorem set_store_context_spec_witness :
    run_stores (fun _ => ⟨true, true, false, true⟩) (fun _ _ => none)
        [JDict.cons "store_id".toList (.jstr "3100".toList)
          (.cons "store_slug".toList (.jstr "laval".toList) .nil)]
        ["1".toList]
      = ([], some .context_failure) :=
  set_store_context_spec.2.2.2.2.2 (fun _ => ⟨true, true, false, true⟩)
    (fun _ _ => none)
    (JDict.cons "store_id".toList (.jstr "3100".toList)
      (.cons "store_slug".toList (.jstr "laval".toList) .nil))
    [] ["1".toList] (by decide) rfl
